import Mathlib

/-!
Verification of the beatmap editor's timeline core.

This file shallowly embeds, over exact rational arithmetic, the parts of the
repository that the specified properties speak about:

* `TimelineViewport` (src/src/utils/TimelineViewport.ts): zoom/scroll state,
  the derived `pixelsPerMs` scale, the time/pixel conversions and the
  auto-scroll behaviour.  Setters are modelled as pure functions returning the
  new state together with a `Bool` recording whether subscribers were
  notified.
* The grid snap function and the click-driven interaction logic of the
  `BeatmapEditor` component (hold-note placement state, hit-testing and
  deletion of existing notes).
* The viewport culling step of `TimelineRenderer.drawNotes` and the
  `samplesPerPixel` computation of the `Waveform` component.

JavaScript numbers are modelled as exact rationals; the one place where IEEE
special values matter (division by a zero `pixelsPerMs`) is modelled
explicitly by the `JSNum` type, which adjoins infinities and NaN to ℚ.
-/

/-- State of the timeline viewport, mirroring the `TimelineViewportState`
interface of src/src/utils/TimelineViewport.ts. -/
structure TimelineViewportState where
  zoom : ℚ
  pixelsPerMs : ℚ
  viewportStartMs : ℚ
  viewportWidthPx : ℚ
  durationMs : ℚ
deriving DecidableEq, Repr

/-- Model of `TimelineViewport.updatePixelsPerMs`: `pixelsPerMs` is `0` when
`durationMs` is `0`, otherwise `viewportWidthPx * zoom / durationMs`. -/
def updatePixelsPerMs (s : TimelineViewportState) : TimelineViewportState :=
  if s.durationMs = 0 then { s with pixelsPerMs := 0 }
  else { s with pixelsPerMs := s.viewportWidthPx * s.zoom / s.durationMs }

/-- Model of `TimelineViewport.setZoom`: clamp to `[1, 20]`, no-op without
notification when unchanged, otherwise recompute `pixelsPerMs` and notify. -/
def setZoom (s : TimelineViewportState) (zoom : ℚ) : TimelineViewportState × Bool :=
  let z := max 1 (min 20 zoom)
  if s.zoom = z then (s, false)
  else (updatePixelsPerMs { s with zoom := z }, true)

/-- Model of `TimelineViewport.setViewportStart`: clamp the requested start to
`[0, max 0 (durationMs - viewportWidthPx / pixelsPerMs)]`, no-op without
notification when the clamped value equals the current start. -/
def setViewportStart (s : TimelineViewportState) (startMs : ℚ) :
    TimelineViewportState × Bool :=
  let maxScroll := max 0 (s.durationMs - s.viewportWidthPx / s.pixelsPerMs)
  let start := max 0 (min maxScroll startMs)
  if s.viewportStartMs = start then (s, false)
  else ({ s with viewportStartMs := start }, true)

/-- Model of `TimelineViewport.setScrollLeft`: convert the pixel offset via
`pixelsPerMs` and delegate to `setViewportStart`. -/
def setScrollLeft (s : TimelineViewportState) (scrollLeftPx : ℚ) :
    TimelineViewportState × Bool :=
  setViewportStart s (scrollLeftPx / s.pixelsPerMs)

/-- Model of `TimelineViewport.setViewportWidth`: no-op when unchanged,
otherwise store the new width and recompute `pixelsPerMs`. -/
def setViewportWidth (s : TimelineViewportState) (widthPx : ℚ) :
    TimelineViewportState × Bool :=
  if s.viewportWidthPx = widthPx then (s, false)
  else (updatePixelsPerMs { s with viewportWidthPx := widthPx }, true)

/-- Model of `TimelineViewport.setDuration`: no-op when unchanged, otherwise
store the new duration, recompute `pixelsPerMs`, and reset the scroll to `0`
only when the stored start exceeds the new duration. -/
def setDuration (s : TimelineViewportState) (durationMs : ℚ) :
    TimelineViewportState × Bool :=
  if s.durationMs = durationMs then (s, false)
  else
    let s1 := updatePixelsPerMs { s with durationMs := durationMs }
    let s2 := if s1.viewportStartMs > durationMs then { s1 with viewportStartMs := 0 } else s1
    (s2, true)

/-- Model of `TimelineViewport.timeToPixel`. -/
def timeToPixel (s : TimelineViewportState) (timeMs : ℚ) : ℚ :=
  timeMs * s.pixelsPerMs

/-- Model of `TimelineViewport.pixelToTime` (rational division; the IEEE
behaviour at `pixelsPerMs = 0` is modelled separately by `pixelToTimeJS`). -/
def pixelToTime (s : TimelineViewportState) (pixel : ℚ) : ℚ :=
  pixel / s.pixelsPerMs

/-- Model of `TimelineViewport.getTotalWidth`. -/
def getTotalWidth (s : TimelineViewportState) : ℚ :=
  s.durationMs * s.pixelsPerMs

/-- Model of `TimelineViewport.getViewportEndMs`. -/
def getViewportEndMs (s : TimelineViewportState) : ℚ :=
  s.viewportStartMs + s.viewportWidthPx / s.pixelsPerMs

/-- Model of `TimelineViewport.autoScrollToTime`: when the target time is
within the left margin, scroll to `max 0 (timeMs - half the visible
duration)`; when within the right margin, scroll to `timeMs - half the
visible duration`; otherwise do nothing. -/
def autoScrollToTime (s : TimelineViewportState) (timeMs marginRatio : ℚ) :
    TimelineViewportState × Bool :=
  let viewportDurationMs := s.viewportWidthPx / s.pixelsPerMs
  let leftMarginMs := viewportDurationMs * marginRatio
  let rightMarginMs := viewportDurationMs * (1 - marginRatio)
  let relativeTimeMs := timeMs - s.viewportStartMs
  if relativeTimeMs < leftMarginMs then
    setViewportStart s (max 0 (timeMs - viewportDurationMs * 0.5))
  else if relativeTimeMs > rightMarginMs then
    setViewportStart s (timeMs - viewportDurationMs * 0.5)
  else (s, false)

/-- A viewport state whose derived field is consistent: positive duration and
width, zoom within the clamp range, and `pixelsPerMs` equal to the value
`updatePixelsPerMs` derives. -/
def WellFormed (s : TimelineViewportState) : Prop :=
  0 < s.durationMs ∧ 0 < s.viewportWidthPx ∧ 1 ≤ s.zoom ∧ s.zoom ≤ 20 ∧
    s.pixelsPerMs = s.viewportWidthPx * s.zoom / s.durationMs

instance (s : TimelineViewportState) : Decidable (WellFormed s) := by
  unfold WellFormed; infer_instance

/-- The documented viewport invariant: whenever the scale is positive, the
visible window `[viewportStartMs, viewportStartMs + viewportWidthPx /
pixelsPerMs]` stays inside `[0, durationMs]` on the right. -/
def ScrollInvariant (s : TimelineViewportState) : Prop :=
  0 < s.pixelsPerMs →
    s.viewportStartMs + s.viewportWidthPx / s.pixelsPerMs ≤ s.durationMs

instance (s : TimelineViewportState) : Decidable (ScrollInvariant s) := by
  unfold ScrollInvariant; infer_instance

/-- JavaScript `Math.round`: round half towards positive infinity. -/
def jsRound (q : ℚ) : ℤ := ⌊q + 1 / 2⌋

/-- Model of `snapToGrid` in the `BeatmapEditor` component (times in
seconds): identity when snapping is disabled, otherwise round to the nearest
multiple of `(60 / bpm) / snapDivision`. -/
def snapToGrid (snapEnabled : Bool) (bpm snapDivision time : ℚ) : ℚ :=
  if snapEnabled = false then time
  else
    let beatDuration := 60 / bpm
    let snapInterval := beatDuration / snapDivision
    (jsRound (time / snapInterval) : ℚ) * snapInterval

/-- Model of `TimelineRenderer.getGridAlignedX` (times in milliseconds):
the x position notes are rendered at; when snapping is active (and bpm and
division are nonzero) the note is drawn at the centre of its nearest grid
column, `jsRound (timeMs / gridIntervalMs) * gridIntervalMs`, converted to
pixels, rather than at its exact time-derived pixel. -/
def getGridAlignedX (snapEnabled : Bool) (bpm snapDivision ppm timeMs : ℚ) : ℚ :=
  if snapEnabled = false ∨ bpm = 0 ∨ snapDivision = 0 then timeMs * ppm
  else
    let beatDurationMs := 60 / bpm * 1000
    let gridIntervalMs := beatDurationMs / snapDivision
    let gridIndex := jsRound (timeMs / gridIntervalMs)
    let gridColumnCenterMs := (gridIndex : ℚ) * gridIntervalMs
    gridColumnCenterMs * ppm

/-- Note kinds of the editor. -/
inductive NoteType where
  | tap : NoteType
  | hold : NoteType
deriving DecidableEq, Repr

/-- A committed note, mirroring the `Note` interface of the `BeatmapEditor`
component: `time` is in seconds and `duration` is present only on holds. -/
structure Note where
  id : String
  lane : ℤ
  time : ℚ
  type : NoteType
  duration : Option ℚ
deriving DecidableEq, Repr

/-- Editor-level configuration captured from the component's props and the
shared viewport scale. -/
structure EditorConfig where
  pixelsPerMs : ℚ
  bpm : ℚ
  snapEnabled : Bool
  snapDivision : ℚ
deriving DecidableEq, Repr

/-- The interaction state machine's mutable placement state: selected tool
plus the pending hold anchor. -/
structure PlacementState where
  selectedNoteType : NoteType
  isPlacingHold : Bool
  holdStartTime : ℚ
  holdStartLane : ℤ
deriving DecidableEq, Repr

/-- The editor's pixel-to-seconds conversion: `renderer.pixelToTime(px) /
1000`. -/
def editorPixelToTime (ppm x : ℚ) : ℚ := x / ppm / 1000

/-- The editor's seconds-to-pixel conversion: `renderer.timeToPixel(time *
1000)`. -/
def editorTimeToPixel (ppm time : ℚ) : ℚ := time * 1000 * ppm

/-- Number of lanes (the `LANES` constant). -/
def LANES : ℤ := 5

/-- Height of one lane in pixels (the `LANE_HEIGHT` constant). -/
def LANE_HEIGHT : ℚ := 60

/-- Model of `handleCanvasClick`: resolve the lane from the click's `y`,
ignore clicks outside the lane band, snap the click time, then either append
a tap note, record a hold anchor, complete a hold on the anchor's lane, or
cancel the pending hold on a lane mismatch. -/
def handleCanvasClick (cfg : EditorConfig) (notes : List Note)
    (ps : PlacementState) (freshId : String) (x y : ℚ) :
    List Note × PlacementState :=
  let laneIndex : ℤ := ⌊y / LANE_HEIGHT⌋
  if laneIndex < 0 ∨ LANES ≤ laneIndex then (notes, ps)
  else
    let clickTime :=
      snapToGrid cfg.snapEnabled cfg.bpm cfg.snapDivision
        (editorPixelToTime cfg.pixelsPerMs x)
    match ps.selectedNoteType with
    | NoteType.tap =>
        (notes ++ [{ id := freshId, lane := laneIndex, time := clickTime,
                     type := NoteType.tap, duration := none }], ps)
    | NoteType.hold =>
        if ps.isPlacingHold = false then
          (notes, { ps with isPlacingHold := true, holdStartTime := clickTime,
                            holdStartLane := laneIndex })
        else if ps.isPlacingHold = true ∧ ps.holdStartLane = laneIndex then
          (notes ++ [{ id := freshId, lane := laneIndex,
                       time := min ps.holdStartTime clickTime,
                       type := NoteType.hold,
                       duration := some |clickTime - ps.holdStartTime| }],
           { ps with isPlacingHold := false })
        else (notes, { ps with isPlacingHold := false })

/-- Hit predicate of `handleNoteClick` for one note: the note's lane must
equal the clicked lane; a tap is hit within distance 15 of its centre (the
source compares `Math.sqrt(dx^2 + dy^2) <= 15`, squared here since both
sides are nonnegative), a hold within its drawn rectangle. -/
def noteHit (ppm : ℚ) (clickLane : ℤ) (x y : ℚ) (note : Note) : Bool :=
  if note.lane ≠ clickLane then false
  else
    match note.type with
    | NoteType.tap =>
        let noteX := editorTimeToPixel ppm note.time
        let noteY := (note.lane : ℚ) * LANE_HEIGHT + 30
        decide ((x - noteX) ^ 2 + (y - noteY) ^ 2 ≤ 15 ^ 2)
    | NoteType.hold =>
        let startX := editorTimeToPixel ppm note.time
        let endX := editorTimeToPixel ppm (note.time + note.duration.getD 0)
        let noteY := (note.lane : ℚ) * LANE_HEIGHT + 20
        decide (startX ≤ x ∧ x ≤ endX ∧ noteY ≤ y ∧ y ≤ noteY + 20)

/-- Model of the search half of `handleNoteClick`: the first note (in
collection order) hit by the click, if any. -/
def handleNoteClick (ppm : ℚ) (notes : List Note) (x y : ℚ) : Option Note :=
  let clickLane : ℤ := ⌊y / LANE_HEIGHT⌋
  notes.find? (noteHit ppm clickLane x y)

/-- Model of the interaction layer's `onClick` handler: first try deletion
via `handleNoteClick` (removing the ids equal to the clicked note's id, as
the source's `filter` does); only when no note was hit run the placement
logic of `handleCanvasClick`. -/
def onClick (cfg : EditorConfig) (notes : List Note) (ps : PlacementState)
    (freshId : String) (x y : ℚ) : List Note × PlacementState :=
  match handleNoteClick cfg.pixelsPerMs notes x y with
  | some clicked => (notes.filter (fun n => n.id ≠ clicked.id), ps)
  | none => handleCanvasClick cfg notes ps freshId x y

/-- User-level events driving the interaction state machine. -/
inductive EditorEvent where
  | click : String → ℚ → ℚ → EditorEvent
  | selectTap : EditorEvent
  | selectHold : EditorEvent
  | clearAll : EditorEvent
deriving DecidableEq, Repr

/-- One step of the interaction state machine: a commit click runs the
combined `onClick` handler; picking the tap tool also cancels a pending hold
(as the Tap button's handler does); clear-all replaces the collection with
the empty list. -/
def editorStep (cfg : EditorConfig) (st : List Note × PlacementState) :
    EditorEvent → List Note × PlacementState
  | EditorEvent.click freshId x y => onClick cfg st.1 st.2 freshId x y
  | EditorEvent.selectTap =>
      (st.1, { st.2 with selectedNoteType := NoteType.tap, isPlacingHold := false })
  | EditorEvent.selectHold =>
      (st.1, { st.2 with selectedNoteType := NoteType.hold })
  | EditorEvent.clearAll => ([], st.2)

/-- Run a sequence of events from a starting state. -/
def editorRun (cfg : EditorConfig) (st : List Note × PlacementState)
    (events : List EditorEvent) : List Note × PlacementState :=
  events.foldl (editorStep cfg) st

/-- The editor's initial placement state: tap tool, no pending hold. -/
def initPlacement : PlacementState :=
  { selectedNoteType := NoteType.tap, isPlacingHold := false,
    holdStartTime := 0, holdStartLane := 0 }

/-- End time in milliseconds used by `TimelineRenderer.drawNotes`: the
source's `note.duration ? (note.time + note.duration) * 1000 : noteTimeMs`
(an absent or zero duration is falsy). -/
def noteEndMs (note : Note) : ℚ :=
  if note.duration.getD 0 = 0 then note.time * 1000
  else (note.time + note.duration.getD 0) * 1000

/-- The culling test of `TimelineRenderer.drawNotes`: a note is skipped when
it ends before the viewport starts or starts after the viewport ends. -/
def noteCulled (viewportStartMs viewportEndMs : ℚ) (note : Note) : Bool :=
  decide (noteEndMs note < viewportStartMs ∨ note.time * 1000 > viewportEndMs)

/-- Notes surviving the culling step of one static `drawNotes` pass. -/
def drawnNotes (s : TimelineViewportState) (notes : List Note) : List Note :=
  notes.filter (fun note => !noteCulled s.viewportStartMs (getViewportEndMs s) note)

/-- The `Waveform` component's computation: `pixelsPerSample = pixelsPerMs *
1000 / sampleRate` and `samplesPerPixel = max(1, floor(1 /
pixelsPerSample))`. -/
def samplesPerPixel (pixelsPerMs sampleRate : ℚ) : ℤ :=
  let pixelsPerSample := pixelsPerMs * 1000 / sampleRate
  max 1 ⌊1 / pixelsPerSample⌋

/-- Reference definition following the spec's words: `max(1,
floor(sampleRateHz / (pixelsPerMs * 1000)))`. -/
def samplesPerPixelSpec (pixelsPerMs sampleRate : ℚ) : ℤ :=
  max 1 ⌊sampleRate / (pixelsPerMs * 1000)⌋

/-- JavaScript number with the IEEE special values relevant to division by
zero: a finite value (kept exact as a rational), the two infinities, and
NaN. -/
inductive JSNum where
  | num : ℚ → JSNum
  | posInf : JSNum
  | negInf : JSNum
  | nan : JSNum
deriving DecidableEq, Repr

/-- IEEE multiplication on `JSNum` (finite values multiplied exactly). -/
def jsMul : JSNum → JSNum → JSNum
  | JSNum.num a, JSNum.num b => JSNum.num (a * b)
  | JSNum.num a, JSNum.posInf =>
      if 0 < a then JSNum.posInf else if a < 0 then JSNum.negInf else JSNum.nan
  | JSNum.num a, JSNum.negInf =>
      if 0 < a then JSNum.negInf else if a < 0 then JSNum.posInf else JSNum.nan
  | JSNum.posInf, JSNum.num b =>
      if 0 < b then JSNum.posInf else if b < 0 then JSNum.negInf else JSNum.nan
  | JSNum.negInf, JSNum.num b =>
      if 0 < b then JSNum.negInf else if b < 0 then JSNum.posInf else JSNum.nan
  | JSNum.posInf, JSNum.posInf => JSNum.posInf
  | JSNum.posInf, JSNum.negInf => JSNum.negInf
  | JSNum.negInf, JSNum.posInf => JSNum.negInf
  | JSNum.negInf, JSNum.negInf => JSNum.posInf
  | _, _ => JSNum.nan

/-- IEEE division on `JSNum` (finite values divided exactly; a zero divisor
yields a signed infinity or, for `0 / 0`, NaN; zero is the default `+0`). -/
def jsDiv : JSNum → JSNum → JSNum
  | JSNum.num a, JSNum.num b =>
      if b = 0 then
        (if 0 < a then JSNum.posInf else if a < 0 then JSNum.negInf else JSNum.nan)
      else JSNum.num (a / b)
  | JSNum.num _, JSNum.posInf => JSNum.num 0
  | JSNum.num _, JSNum.negInf => JSNum.num 0
  | JSNum.posInf, JSNum.num b => if 0 ≤ b then JSNum.posInf else JSNum.negInf
  | JSNum.negInf, JSNum.num b => if 0 ≤ b then JSNum.negInf else JSNum.posInf
  | _, _ => JSNum.nan

/-- The viewport's `timeToPixel` under IEEE semantics. -/
def timeToPixelJS (s : TimelineViewportState) (t : JSNum) : JSNum :=
  jsMul t (JSNum.num s.pixelsPerMs)

/-- The viewport's `pixelToTime` under IEEE semantics. -/
def pixelToTimeJS (s : TimelineViewportState) (px : JSNum) : JSNum :=
  jsDiv px (JSNum.num s.pixelsPerMs)

/-- Helper: `HoldDurationsNonneg notes` says every hold note in the
collection carries a nonnegative duration. -/
def HoldDurationsNonneg (notes : List Note) : Prop :=
  ∀ n ∈ notes, n.type = NoteType.hold → ∃ d, n.duration = some d ∧ 0 ≤ d

theorem jsRound_intCast (n : ℤ) : jsRound (n : ℚ) = n := by
  unfold jsRound
  rw [add_comm, Int.floor_add_int]
  norm_num

/-- C1: in every well-formed viewport (positive duration and width, zoom in
the clamp range, `pixelsPerMs` consistently derived, hence positive and
finite), `pixelToTime` inverts `timeToPixel` exactly for every `t ≥ 0`. -/
theorem roundtrip_timeToPixel_pixelToTime (s : TimelineViewportState)
    (hs : WellFormed s) (t : ℚ) (ht : 0 ≤ t) :
    pixelToTime s (timeToPixel s t) = t := by
  obtain ⟨hd, hw, hz1, _, hppm⟩ := hs
  have hz : (0 : ℚ) < s.zoom := lt_of_lt_of_le one_pos hz1
  have hpos : 0 < s.pixelsPerMs := by
    rw [hppm]; exact div_pos (mul_pos hw hz) hd
  unfold pixelToTime timeToPixel
  exact mul_div_cancel_right₀ t (ne_of_gt hpos)

theorem roundtrip_timeToPixel_pixelToTime_witness :
    WellFormed ⟨2, 1/5, 0, 100, 1000⟩ ∧ (0 : ℚ) ≤ 7 ∧
      pixelToTime ⟨2, 1/5, 0, 100, 1000⟩ (timeToPixel ⟨2, 1/5, 0, 100, 1000⟩ 7) = 7 :=
  ⟨by norm_num [WellFormed], by norm_num,
    roundtrip_timeToPixel_pixelToTime ⟨2, 1/5, 0, 100, 1000⟩
      (by norm_num [WellFormed]) 7 (by norm_num)⟩

/-- C3: snapping is idempotent: for every time, positive bpm and positive
division, snapping a snapped time returns it unchanged. -/
theorem snapToGrid_idempotent (bpm division t : ℚ) (hb : 0 < bpm) (hd : 0 < division) :
    snapToGrid true bpm division (snapToGrid true bpm division t) =
      snapToGrid true bpm division t := by
  have hI : (60 : ℚ) / bpm / division ≠ 0 :=
    ne_of_gt (div_pos (div_pos (by norm_num) hb) hd)
  have expand : ∀ u : ℚ, snapToGrid true bpm division u =
      (jsRound (u / (60 / bpm / division)) : ℚ) * (60 / bpm / division) := by
    intro u; simp [snapToGrid]
  rw [expand, expand, mul_div_cancel_right₀ _ hI, jsRound_intCast]

theorem snapToGrid_idempotent_witness :
    (0 : ℚ) < 120 ∧ (0 : ℚ) < 4 ∧
      snapToGrid true 120 4 (snapToGrid true 120 4 (47/100)) =
        snapToGrid true 120 4 (47/100) :=
  ⟨by norm_num, by norm_num,
    snapToGrid_idempotent 120 4 (47/100) (by norm_num) (by norm_num)⟩

/-- C9: for positive scale and sample rate, the waveform's
`max(1, floor(1 / ((pixelsPerMs * 1000) / sampleRate)))` equals the reference
`max(1, floor(sampleRate / (pixelsPerMs * 1000)))`. -/
theorem samplesPerPixel_eq_spec (ppm sampleRate : ℚ)
    (hp : 0 < ppm) (hs : 0 < sampleRate) :
    samplesPerPixel ppm sampleRate = samplesPerPixelSpec ppm sampleRate := by
  simp only [samplesPerPixel, samplesPerPixelSpec]
  rw [one_div_div]

theorem samplesPerPixel_eq_spec_witness :
    (0 : ℚ) < 1/10 ∧ (0 : ℚ) < 44100 ∧
      samplesPerPixel (1/10) 44100 = samplesPerPixelSpec (1/10) 44100 :=
  ⟨by norm_num, by norm_num,
    samplesPerPixel_eq_spec (1/10) 44100 (by norm_num) (by norm_num)⟩

/-- C10: when `durationMs = 0` the derived scale is forced to `0`; then
`timeToPixel` returns `0` for every finite time, `pixelToTime` returns
positive infinity on positive pixels and NaN at pixel `0`, and the
round-trip property fails. -/
theorem zero_duration_viewport (s : TimelineViewportState)
    (h : s.durationMs = 0) (t px : ℚ) (hpx : 0 < px) :
    (updatePixelsPerMs s).pixelsPerMs = 0 ∧
    timeToPixelJS (updatePixelsPerMs s) (JSNum.num t) = JSNum.num 0 ∧
    pixelToTimeJS (updatePixelsPerMs s) (JSNum.num px) = JSNum.posInf ∧
    pixelToTimeJS (updatePixelsPerMs s) (JSNum.num 0) = JSNum.nan ∧
    pixelToTimeJS (updatePixelsPerMs s)
        (timeToPixelJS (updatePixelsPerMs s) (JSNum.num t)) ≠ JSNum.num t := by
  have h0 : (updatePixelsPerMs s).pixelsPerMs = 0 := by
    simp [updatePixelsPerMs, h]
  refine ⟨h0, ?_, ?_, ?_, ?_⟩
  · simp [timeToPixelJS, jsMul, h0]
  · simp [pixelToTimeJS, jsDiv, h0, hpx, not_lt.mpr (le_of_lt hpx)]
  · simp [pixelToTimeJS, jsDiv, h0]
  · simp [pixelToTimeJS, timeToPixelJS, jsMul, jsDiv, h0]

theorem zero_duration_viewport_witness :
    (TimelineViewportState.durationMs ⟨1, 0, 0, 800, 0⟩ = 0) ∧ (0 : ℚ) < 3 ∧
      ((updatePixelsPerMs ⟨1, 0, 0, 800, 0⟩).pixelsPerMs = 0 ∧
       timeToPixelJS (updatePixelsPerMs ⟨1, 0, 0, 800, 0⟩) (JSNum.num 7) = JSNum.num 0 ∧
       pixelToTimeJS (updatePixelsPerMs ⟨1, 0, 0, 800, 0⟩) (JSNum.num 3) = JSNum.posInf ∧
       pixelToTimeJS (updatePixelsPerMs ⟨1, 0, 0, 800, 0⟩) (JSNum.num 0) = JSNum.nan ∧
       pixelToTimeJS (updatePixelsPerMs ⟨1, 0, 0, 800, 0⟩)
           (timeToPixelJS (updatePixelsPerMs ⟨1, 0, 0, 800, 0⟩) (JSNum.num 7)) ≠ JSNum.num 7) :=
  ⟨rfl, by norm_num,
    zero_duration_viewport ⟨1, 0, 0, 800, 0⟩ rfl 7 3 (by norm_num)⟩

/-- C6: a note survives the culling step of a static `drawNotes` pass iff it
is in the collection and neither ends before the viewport starts nor starts
after the viewport ends; in particular a note entirely left of the viewport
is excluded and a note straddling the viewport's end is drawn. -/
theorem drawNotes_culling (s : TimelineViewportState) (notes : List Note) (n : Note) :
    (n ∈ drawnNotes s notes ↔
      n ∈ notes ∧
        ¬(noteEndMs n < s.viewportStartMs ∨ n.time * 1000 > getViewportEndMs s)) ∧
    (n ∈ notes → noteEndMs n < s.viewportStartMs → n ∉ drawnNotes s notes) ∧
    (n ∈ notes → n.time * 1000 ≤ getViewportEndMs s →
      getViewportEndMs s ≤ noteEndMs n → s.viewportStartMs ≤ getViewportEndMs s →
      n ∈ drawnNotes s notes) := by
  have hiff : n ∈ drawnNotes s notes ↔
      n ∈ notes ∧
        ¬(noteEndMs n < s.viewportStartMs ∨ n.time * 1000 > getViewportEndMs s) := by
    simp [drawnNotes, noteCulled, List.mem_filter]
  refine ⟨hiff, ?_, ?_⟩
  · intro hmem hleft hdrawn
    exact ((hiff.mp hdrawn).2) (Or.inl hleft)
  · intro hmem hstart hend hord
    exact hiff.mpr ⟨hmem, by push_neg; constructor <;> linarith⟩

theorem drawNotes_culling_witness :
    (({ id := "w6", lane := 0, time := 1, type := NoteType.hold,
        duration := some (1/2) } : Note) ∈
        ([{ id := "w6", lane := 0, time := 1, type := NoteType.hold,
            duration := some (1/2) }] : List Note)) ∧
    ({ id := "w6", lane := 0, time := 1, type := NoteType.hold,
       duration := some (1/2) } : Note) ∈
      drawnNotes ⟨1, 1/10, 200, 100, 10000⟩
        [{ id := "w6", lane := 0, time := 1, type := NoteType.hold,
           duration := some (1/2) }] :=
  ⟨by simp,
    (drawNotes_culling ⟨1, 1/10, 200, 100, 10000⟩
        [{ id := "w6", lane := 0, time := 1, type := NoteType.hold,
           duration := some (1/2) }]
        { id := "w6", lane := 0, time := 1, type := NoteType.hold,
          duration := some (1/2) }).2.2
      (by simp)
      (by norm_num [getViewportEndMs])
      (by norm_num [getViewportEndMs, noteEndMs])
      (by norm_num [getViewportEndMs])⟩

theorem setViewportStart_fst (s : TimelineViewportState) (x : ℚ) :
    (setViewportStart s x).1 =
      { s with
        viewportStartMs :=
          max 0 (min (max 0 (s.durationMs - s.viewportWidthPx / s.pixelsPerMs)) x) } := by
  simp only [setViewportStart]
  split
  next h => rw [← h]
  next h => rfl

/-- C2 counterexample: in the well-formed state with zoom 5, duration 1000,
width 100 and scroll 800 the invariant holds, but `setZoom 1` recomputes
`pixelsPerMs` without re-clamping the stored scroll, leaving
`scrollOffsetMs + viewportWidthPx / pixelsPerMs = 1800 > 1000`. -/
theorem setZoom_breaks_scrollInvariant :
    WellFormed ⟨5, 1/2, 800, 100, 1000⟩ ∧
    ScrollInvariant ⟨5, 1/2, 800, 100, 1000⟩ ∧
    ¬ ScrollInvariant (setZoom ⟨5, 1/2, 800, 100, 1000⟩ 1).1 := by
  refine ⟨by norm_num [WellFormed], ?_, ?_⟩
  · unfold ScrollInvariant
    intro h
    norm_num
  · have h1 : (setZoom ⟨5, 1/2, 800, 100, 1000⟩ 1).1 = ⟨1, 1/10, 800, 100, 1000⟩ := by
      norm_num [setZoom, updatePixelsPerMs]
    rw [h1]
    unfold ScrollInvariant
    intro hinv
    have h2 := hinv (by norm_num)
    norm_num at h2

/-- C2 amended: in a well-formed viewport, `setViewportStart` and
`setScrollLeft` clamp the requested scroll and (re)establish the invariant,
and `setViewportWidth` preserves it (the visible duration
`durationMs / zoom` does not depend on the width); `setZoom` and
`setDuration`, in contrast, recompute the scale without re-clamping the
stored scroll and so can break the bound. -/
theorem scroll_clamp_ops (s : TimelineViewportState) (x w : ℚ)
    (hs : WellFormed s) :
    ScrollInvariant (setViewportStart s x).1 ∧
    ScrollInvariant (setScrollLeft s x).1 ∧
    (ScrollInvariant s → ScrollInvariant (setViewportWidth s w).1) := by
  obtain ⟨hd, hw, hz1, hz2, hppm⟩ := hs
  have hz : (0 : ℚ) < s.zoom := lt_of_lt_of_le one_pos hz1
  have hppm_pos : 0 < s.pixelsPerMs := by
    rw [hppm]; exact div_pos (mul_pos hw hz) hd
  have hvd : s.viewportWidthPx / s.pixelsPerMs = s.durationMs / s.zoom := by
    rw [hppm, div_div_eq_mul_div, mul_div_mul_left _ _ (ne_of_gt hw)]
  have hvd_le : s.durationMs / s.zoom ≤ s.durationMs :=
    div_le_self (le_of_lt hd) hz1
  have h0 : (0 : ℚ) ≤ s.durationMs - s.durationMs / s.zoom := sub_nonneg.mpr hvd_le
  have key : ∀ y, ScrollInvariant (setViewportStart s y).1 := by
    intro y
    rw [setViewportStart_fst]
    unfold ScrollInvariant
    intro _
    show max 0 (min (max 0 (s.durationMs - s.viewportWidthPx / s.pixelsPerMs)) y) +
        s.viewportWidthPx / s.pixelsPerMs ≤ s.durationMs
    rw [hvd]
    have h2 : max 0 (min (max 0 (s.durationMs - s.durationMs / s.zoom)) y) ≤
        s.durationMs - s.durationMs / s.zoom :=
      max_le h0 (le_trans (min_le_left _ _) (le_of_eq (max_eq_right h0)))
    linarith
  refine ⟨key x, key _, ?_⟩
  intro hinv
  unfold setViewportWidth
  split
  next heq => exact hinv
  next hne =>
    unfold updatePixelsPerMs
    rw [if_neg (ne_of_gt hd)]
    unfold ScrollInvariant
    intro hppm'
    dsimp only at hppm' ⊢
    have hwpos : 0 < w := by
      rcases (div_pos_iff).mp hppm' with ⟨hnum, _⟩ | ⟨_, hdneg⟩
      · rcases (mul_pos_iff).mp hnum with ⟨h', _⟩ | ⟨_, hzneg⟩
        · exact h'
        · linarith
      · linarith
    have hv' : w / (w * s.zoom / s.durationMs) = s.durationMs / s.zoom := by
      rw [div_div_eq_mul_div, mul_div_mul_left _ _ (ne_of_gt hwpos)]
    rw [hv']
    have hold := hinv hppm_pos
    rw [hvd] at hold
    exact hold

theorem scroll_clamp_ops_witness :
    WellFormed ⟨2, 1/5, 0, 100, 1000⟩ ∧
      (ScrollInvariant (setViewportStart ⟨2, 1/5, 0, 100, 1000⟩ 5000).1 ∧
       ScrollInvariant (setScrollLeft ⟨2, 1/5, 0, 100, 1000⟩ 5000).1 ∧
       (ScrollInvariant ⟨2, 1/5, 0, 100, 1000⟩ →
        ScrollInvariant (setViewportWidth ⟨2, 1/5, 0, 100, 1000⟩ 300).1)) :=
  ⟨by norm_num [WellFormed],
    scroll_clamp_ops ⟨2, 1/5, 0, 100, 1000⟩ 5000 300 (by norm_num [WellFormed])⟩

theorem clamp_max_zero (M x : ℚ) (hM : 0 ≤ M) :
    max 0 (min M (max 0 x)) = max 0 (min M x) := by
  rcases le_total x 0 with h | h
  · rw [max_eq_left h, min_eq_right hM, max_self]
    exact (max_eq_left (le_trans (min_le_right M x) h)).symm
  · rw [max_eq_right h]

/-- C8 counterexample: in the well-formed state with zoom 1, duration 1000,
width 100 and scroll 0, the time 10 is within the left margin (10 < 300), so
the claim predicts the scroll recenters to `10 - 500 = -490`; the code routes
the target through `setViewportStart`, which clamps it to 0, so the stored
start is not `timeMs` minus half the visible duration. -/
theorem autoScroll_recenter_clamped_cex :
    WellFormed ⟨1, 1/10, 0, 100, 1000⟩ ∧
    (10 : ℚ) - TimelineViewportState.viewportStartMs ⟨1, 1/10, 0, 100, 1000⟩ <
      TimelineViewportState.viewportWidthPx ⟨1, 1/10, 0, 100, 1000⟩ /
        TimelineViewportState.pixelsPerMs ⟨1, 1/10, 0, 100, 1000⟩ * (3/10) ∧
    (autoScrollToTime ⟨1, 1/10, 0, 100, 1000⟩ 10 (3/10)).1.viewportStartMs ≠
      10 - TimelineViewportState.viewportWidthPx ⟨1, 1/10, 0, 100, 1000⟩ /
        TimelineViewportState.pixelsPerMs ⟨1, 1/10, 0, 100, 1000⟩ * 0.5 := by
  refine ⟨by norm_num [WellFormed], by norm_num, ?_⟩
  norm_num [autoScrollToTime, setViewportStart]

/-- C8 amended: with a positive scale, `autoScrollToTime` is a no-op exactly
when the target time is at least `marginRatio` and at most `1 - marginRatio`
of the visible duration from the left edge (boundaries included); otherwise
it requests `timeMs - visibleDuration / 2` (floored at 0 on the left branch)
through `setViewportStart`, so the stored start becomes that target clamped
into `[0, max 0 (durationMs - visibleDuration)]`, not always the exact
midpoint-centring value. -/
theorem autoScrollToTime_behavior (s : TimelineViewportState) (t m : ℚ)
    (hppm : 0 < s.pixelsPerMs) :
    (s.viewportWidthPx / s.pixelsPerMs * m ≤ t - s.viewportStartMs ∧
       t - s.viewportStartMs ≤ s.viewportWidthPx / s.pixelsPerMs * (1 - m) →
     autoScrollToTime s t m = (s, false)) ∧
    (¬(s.viewportWidthPx / s.pixelsPerMs * m ≤ t - s.viewportStartMs ∧
       t - s.viewportStartMs ≤ s.viewportWidthPx / s.pixelsPerMs * (1 - m)) →
     (autoScrollToTime s t m).1 =
       { s with
         viewportStartMs :=
           max 0 (min (max 0 (s.durationMs - s.viewportWidthPx / s.pixelsPerMs))
             (t - s.viewportWidthPx / s.pixelsPerMs * 0.5)) }) := by
  constructor
  · rintro ⟨h1, h2⟩
    simp only [autoScrollToTime]
    rw [if_neg (not_lt.mpr h1), if_neg (not_lt.mpr h2)]
  · intro hout
    by_cases hA : s.viewportWidthPx / s.pixelsPerMs * m ≤ t - s.viewportStartMs
    · have hrel : s.viewportWidthPx / s.pixelsPerMs * (1 - m) < t - s.viewportStartMs := by
        by_contra hc
        exact hout ⟨hA, not_lt.mp hc⟩
      simp only [autoScrollToTime]
      rw [if_neg (not_lt.mpr hA), if_pos hrel, setViewportStart_fst]
    · have hlt : t - s.viewportStartMs < s.viewportWidthPx / s.pixelsPerMs * m :=
        not_le.mp hA
      simp only [autoScrollToTime]
      rw [if_pos hlt, setViewportStart_fst]
      exact congrArg (fun v => { s with viewportStartMs := v })
        (clamp_max_zero _ _ (le_max_left 0 _))

theorem autoScrollToTime_behavior_witness :
    (0 : ℚ) < TimelineViewportState.pixelsPerMs ⟨2, 1/5, 0, 100, 1000⟩ ∧
    autoScrollToTime ⟨2, 1/5, 0, 100, 1000⟩ 200 (3/10) =
      (⟨2, 1/5, 0, 100, 1000⟩, false) :=
  ⟨by norm_num,
    (autoScrollToTime_behavior ⟨2, 1/5, 0, 100, 1000⟩ 200 (3/10) (by norm_num)).1
      (by norm_num)⟩

theorem find?_eq_some_split {α : Type} (p : α → Bool) :
    ∀ (l : List α) (a : α), l.find? p = some a →
      ∃ l₁ l₂, l = l₁ ++ a :: l₂ ∧ (∀ b ∈ l₁, p b = false) ∧ p a = true := by
  intro l
  induction l with
  | nil => intro a h; simp [List.find?] at h
  | cons x xs ih =>
    intro a h
    by_cases hp : p x = true
    · rw [List.find?_cons_of_pos _ hp] at h
      obtain rfl : x = a := by injection h
      exact ⟨[], xs, rfl, by intro b hb; simp at hb, hp⟩
    · have hp' : p x = false := by
        cases hpx : p x
        · rfl
        · exact absurd hpx hp
      rw [List.find?_cons_of_neg _ (by simp [hp'])] at h
      obtain ⟨l₁, l₂, heq, hmiss, hhit⟩ := ih a h
      refine ⟨x :: l₁, l₂, by rw [heq]; rfl, ?_, hhit⟩
      intro b hb
      rcases List.mem_cons.mp hb with rfl | hb'
      · exact hp'
      · exact hmiss b hb'

theorem filter_ne_of_nodup (n : Note) (l₁ l₂ : List Note)
    (hnd : ((l₁ ++ n :: l₂).map Note.id).Nodup) :
    (l₁ ++ n :: l₂).filter (fun m => m.id ≠ n.id) = l₁ ++ l₂ := by
  rw [List.map_append, List.map_cons, List.nodup_append] at hnd
  obtain ⟨hnd₁, hnd₂, hdisj⟩ := hnd
  have h₁ : l₁.filter (fun m => m.id ≠ n.id) = l₁ := by
    apply List.filter_eq_self.mpr
    intro a ha
    simp only [ne_eq, decide_not, Bool.not_eq_eq_eq_not, Bool.not_true,
      decide_eq_false_iff_not]
    intro hEq
    exact hdisj (List.mem_map_of_mem Note.id ha)
      (by rw [hEq]; exact List.mem_cons_self _ _)
  have h₂ : l₂.filter (fun m => m.id ≠ n.id) = l₂ := by
    apply List.filter_eq_self.mpr
    intro a ha
    simp only [ne_eq, decide_not, Bool.not_eq_eq_eq_not, Bool.not_true,
      decide_eq_false_iff_not]
    intro hEq
    have hmem : n.id ∈ l₂.map Note.id := by
      rw [← hEq]; exact List.mem_map_of_mem Note.id ha
    exact (List.nodup_cons.mp hnd₂).1 hmem
  have h₃ : (decide (n.id ≠ n.id)) = false := by simp
  rw [List.filter_append, h₁, List.filter_cons]
  simp only [h₃, Bool.false_eq_true, if_false, h₂]

/-- C4: from the `PlacingHoldAnchor` state (hold tool selected, anchor at
lane `L` and time `a`), a commit click that hits no existing note behaves as
follows: on the anchor's lane it appends exactly one hold note with time
`min a c` and duration `|c - a|` (where `c` is the snapped click time) and
clears the placing flag; on a different lane it discards the anchor,
appends nothing, and clears the placing flag. -/
theorem hold_commit (cfg : EditorConfig) (notes : List Note)
    (ps : PlacementState) (fid : String) (x y : ℚ)
    (htool : ps.selectedNoteType = NoteType.hold)
    (hplacing : ps.isPlacingHold = true)
    (hnohit : handleNoteClick cfg.pixelsPerMs notes x y = none)
    (hlo : 0 ≤ ⌊y / LANE_HEIGHT⌋) (hhi : ⌊y / LANE_HEIGHT⌋ < LANES) :
    (⌊y / LANE_HEIGHT⌋ = ps.holdStartLane →
      onClick cfg notes ps fid x y =
        (notes ++ [{ id := fid, lane := ps.holdStartLane,
                     time := min ps.holdStartTime
                       (snapToGrid cfg.snapEnabled cfg.bpm cfg.snapDivision
                         (editorPixelToTime cfg.pixelsPerMs x)),
                     type := NoteType.hold,
                     duration := some |snapToGrid cfg.snapEnabled cfg.bpm cfg.snapDivision
                         (editorPixelToTime cfg.pixelsPerMs x) - ps.holdStartTime| }],
         { ps with isPlacingHold := false })) ∧
    (⌊y / LANE_HEIGHT⌋ ≠ ps.holdStartLane →
      onClick cfg notes ps fid x y = (notes, { ps with isPlacingHold := false })) := by
  have hrange : ¬(⌊y / LANE_HEIGHT⌋ < 0 ∨ LANES ≤ ⌊y / LANE_HEIGHT⌋) :=
    not_or.mpr ⟨not_lt.mpr hlo, not_le.mpr hhi⟩
  constructor
  · intro hlane
    simp only [onClick, hnohit, handleCanvasClick, htool, hplacing]
    rw [if_neg hrange, if_neg (by simp), if_pos ⟨by trivial, hlane.symm⟩, hlane]
  · intro hlane
    simp only [onClick, hnohit, handleCanvasClick, htool, hplacing]
    rw [if_neg hrange, if_neg (by simp), if_neg (by rintro ⟨_, h⟩; exact hlane h.symm)]

theorem hold_commit_witness :
    handleNoteClick (1 : ℚ) [] 600 10 = none ∧
    onClick ⟨1, 120, true, 4⟩ [] ⟨NoteType.hold, true, 0, 0⟩ "w4" 600 10 =
      ([{ id := "w4", lane := 0, time := 0, type := NoteType.hold,
          duration := some (5/8) }],
       ⟨NoteType.hold, false, 0, 0⟩) := by
  refine ⟨rfl, ?_⟩
  have h := (hold_commit ⟨1, 120, true, 4⟩ [] ⟨NoteType.hold, true, 0, 0⟩ "w4" 600 10
      rfl rfl rfl (by norm_num [LANE_HEIGHT]) (by norm_num [LANE_HEIGHT, LANES])).1
    (by norm_num [LANE_HEIGHT])
  rw [h]
  norm_num [snapToGrid, jsRound, editorPixelToTime, min_def, abs_of_nonneg]

/-- C5 counterexample: with snapping enabled (bpm 120, division 4, scale 1
px per ms), a tap note at the off-grid time 0.3 s is rendered at the
grid-aligned pixel 250, but the hit test anchors its circle at the exact
time-derived pixel 300; a click at the rendered centre (250, 30) therefore
hits nothing, and the combined handler places a new note instead of
removing the existing one. -/
theorem hit_test_not_rendered_cex :
    (jsRound (getGridAlignedX true 120 4 1 ((3/10) * 1000)) : ℚ) = 250 ∧
    editorTimeToPixel 1 (3/10) = 300 ∧
    handleNoteClick 1
        [{ id := "c5", lane := 0, time := 3/10, type := NoteType.tap,
           duration := none }] 250 30 = none ∧
    onClick ⟨1, 120, true, 4⟩
        [{ id := "c5", lane := 0, time := 3/10, type := NoteType.tap,
           duration := none }] initPlacement "new" 250 30 =
      ([{ id := "c5", lane := 0, time := 3/10, type := NoteType.tap,
          duration := none },
        { id := "new", lane := 0, time := 1/4, type := NoteType.tap,
          duration := none }], initPlacement) := by
  refine ⟨?_, ?_, ?_, ?_⟩
  · norm_num [getGridAlignedX, jsRound]
  · norm_num [editorTimeToPixel]
  · norm_num [handleNoteClick, noteHit, editorTimeToPixel, LANE_HEIGHT,
      List.find?_cons, List.find?_nil]
  · norm_num [onClick, handleNoteClick, noteHit, handleCanvasClick, snapToGrid,
      jsRound, editorPixelToTime, editorTimeToPixel, initPlacement, LANE_HEIGHT,
      LANES, List.find?_cons, List.find?_nil]

/-- C5 amended: when a commit click hits a note, the hit note is the first
one in collection order satisfying the hit predicate (circular region for
taps, rectangle for holds, on the clicked lane, all anchored at the exact
time-derived pixel `timeToPixel(note.time * 1000)` rather than at the
grid-aligned position the note is rendered at when snapping is enabled);
with unique ids the combined click handler removes exactly that note, keeps
every other note in order, and skips the placement logic entirely. -/
theorem delete_first_hit (cfg : EditorConfig) (notes : List Note)
    (ps : PlacementState) (fid : String) (x y : ℚ) (n : Note)
    (hnd : (notes.map Note.id).Nodup)
    (hfind : handleNoteClick cfg.pixelsPerMs notes x y = some n) :
    ∃ l₁ l₂, notes = l₁ ++ n :: l₂ ∧
      (∀ m ∈ l₁, noteHit cfg.pixelsPerMs ⌊y / LANE_HEIGHT⌋ x y m = false) ∧
      noteHit cfg.pixelsPerMs ⌊y / LANE_HEIGHT⌋ x y n = true ∧
      onClick cfg notes ps fid x y = (l₁ ++ l₂, ps) := by
  have hfind' : notes.find? (noteHit cfg.pixelsPerMs ⌊y / LANE_HEIGHT⌋ x y) = some n :=
    hfind
  obtain ⟨l₁, l₂, heq, hmiss, hhit⟩ :=
    find?_eq_some_split (noteHit cfg.pixelsPerMs ⌊y / LANE_HEIGHT⌋ x y) notes n hfind'
  refine ⟨l₁, l₂, heq, hmiss, hhit, ?_⟩
  subst heq
  simp only [onClick, hfind]
  rw [filter_ne_of_nodup n l₁ l₂ hnd]

theorem delete_first_hit_witness :
    (([{ id := "n1", lane := 0, time := 1/10, type := NoteType.tap,
         duration := none }] : List Note).map Note.id).Nodup ∧
    handleNoteClick (1 : ℚ)
        [{ id := "n1", lane := 0, time := 1/10, type := NoteType.tap,
           duration := none }] 100 30 =
      some { id := "n1", lane := 0, time := 1/10, type := NoteType.tap,
             duration := none } ∧
    (∃ l₁ l₂,
      ([{ id := "n1", lane := 0, time := 1/10, type := NoteType.tap,
          duration := none }] : List Note) =
        l₁ ++ { id := "n1", lane := 0, time := 1/10, type := NoteType.tap,
                duration := none } :: l₂ ∧
      (∀ m ∈ l₁, noteHit 1 ⌊(30 : ℚ) / LANE_HEIGHT⌋ 100 30 m = false) ∧
      noteHit 1 ⌊(30 : ℚ) / LANE_HEIGHT⌋ 100 30
          { id := "n1", lane := 0, time := 1/10, type := NoteType.tap,
            duration := none } = true ∧
      onClick ⟨1, 120, true, 4⟩
          [{ id := "n1", lane := 0, time := 1/10, type := NoteType.tap,
             duration := none }] initPlacement "n2" 100 30 = (l₁ ++ l₂, initPlacement)) :=
  ⟨by simp,
   by norm_num [handleNoteClick, noteHit, editorTimeToPixel, LANE_HEIGHT, List.find?_cons],
   delete_first_hit ⟨1, 120, true, 4⟩
     [{ id := "n1", lane := 0, time := 1/10, type := NoteType.tap, duration := none }]
     initPlacement "n2" 100 30
     { id := "n1", lane := 0, time := 1/10, type := NoteType.tap, duration := none }
     (by simp)
     (by norm_num [handleNoteClick, noteHit, editorTimeToPixel, LANE_HEIGHT,
       List.find?_cons])⟩

theorem holdDurations_preserved_step (cfg : EditorConfig)
    (st : List Note × PlacementState) (e : EditorEvent)
    (h : HoldDurationsNonneg st.1) :
    HoldDurationsNonneg (editorStep cfg st e).1 := by
  cases e with
  | click fid x y =>
    simp only [editorStep, onClick]
    cases hfind : handleNoteClick cfg.pixelsPerMs st.1 x y with
    | some clicked =>
      intro n hn ht
      exact h n (List.mem_of_mem_filter hn) ht
    | none =>
      simp only [handleCanvasClick]
      split
      next => exact h
      next =>
        split
        · intro n hn ht
          rcases List.mem_append.mp hn with hmem | hnew
          · exact h n hmem ht
          · simp only [List.mem_singleton] at hnew
            subst hnew
            simp at ht
        · split
          next => exact h
          next =>
            split
            next =>
              intro n hn ht
              rcases List.mem_append.mp hn with hmem | hnew
              · exact h n hmem ht
              · simp only [List.mem_singleton] at hnew
                subst hnew
                exact ⟨_, rfl, abs_nonneg _⟩
            next => exact h
  | selectTap => exact h
  | selectHold => exact h
  | clearAll =>
    intro n hn ht
    exact absurd hn (List.not_mem_nil n)

/-- C7 counterexample: with the hold tool, clicking twice at the same
snapped position (lane 0, time 0) commits a hold note whose duration is
exactly 0, so the committed collection contains a hold note without a
strictly positive duration. -/
theorem hold_zero_duration_cex :
    (editorRun ⟨1, 120, true, 4⟩ ([], initPlacement)
        [EditorEvent.selectHold, EditorEvent.click "a" 0 0,
         EditorEvent.click "b" 0 0]).1 =
      [{ id := "b", lane := 0, time := 0, type := NoteType.hold,
         duration := some 0 }] ∧
    ¬ (∀ n ∈ (editorRun ⟨1, 120, true, 4⟩ ([], initPlacement)
          [EditorEvent.selectHold, EditorEvent.click "a" 0 0,
           EditorEvent.click "b" 0 0]).1,
        n.type = NoteType.hold → ∃ d, n.duration = some d ∧ 0 < d) := by
  have hrun : (editorRun ⟨1, 120, true, 4⟩ ([], initPlacement)
      [EditorEvent.selectHold, EditorEvent.click "a" 0 0,
       EditorEvent.click "b" 0 0]).1 =
      [{ id := "b", lane := 0, time := 0, type := NoteType.hold,
         duration := some 0 }] := by
    norm_num [editorRun, editorStep, onClick, handleNoteClick, handleCanvasClick,
      snapToGrid, jsRound, editorPixelToTime, initPlacement, LANE_HEIGHT, LANES,
      List.find?, min_def]
  refine ⟨hrun, ?_⟩
  intro hall
  obtain ⟨d, hd, hpos⟩ := hall
    { id := "b", lane := 0, time := 0, type := NoteType.hold, duration := some 0 }
    (by rw [hrun]; simp) rfl
  simp only [Option.some.injEq] at hd
  subst hd
  exact absurd hpos (by norm_num)

/-- C7 amended: every hold note in any collection reachable by a sequence
of editor events from the empty collection carries some duration `d` with
`d ≥ 0` (the duration is `|clickTime - anchorTime|`, which is zero exactly
when the two snapped click times coincide, so strict positivity fails). -/
theorem reachable_hold_durations_nonneg (cfg : EditorConfig)
    (events : List EditorEvent) (ps : PlacementState) :
    HoldDurationsNonneg (editorRun cfg ([], ps) events).1 := by
  suffices key : ∀ st : List Note × PlacementState, HoldDurationsNonneg st.1 →
      HoldDurationsNonneg (editorRun cfg st events).1 by
    refine key ([], ps) ?_
    intro n hn ht
    simp at hn
  induction events with
  | nil => intro st h; exact h
  | cons e es ih =>
    intro st h
    exact ih _ (holdDurations_preserved_step cfg st e h)

theorem reachable_hold_durations_nonneg_witness :
    ({ id := "b", lane := 0, time := 0, type := NoteType.hold,
       duration := some (5/8) } : Note) ∈
      (editorRun ⟨1, 120, true, 4⟩ ([], initPlacement)
        [EditorEvent.selectHold, EditorEvent.click "a" 0 0,
         EditorEvent.click "b" 600 0]).1 ∧
    (∃ d, Note.duration { id := "b", lane := 0, time := 0, type := NoteType.hold,
                          duration := some (5/8) } = some d ∧ 0 ≤ d) := by
  have hrun : (editorRun ⟨1, 120, true, 4⟩ ([], initPlacement)
      [EditorEvent.selectHold, EditorEvent.click "a" 0 0,
       EditorEvent.click "b" 600 0]).1 =
      [{ id := "b", lane := 0, time := 0, type := NoteType.hold,
         duration := some (5/8) }] := by
    norm_num [editorRun, editorStep, onClick, handleNoteClick, handleCanvasClick,
      snapToGrid, jsRound, editorPixelToTime, initPlacement, LANE_HEIGHT, LANES,
      List.find?, min_def, abs_of_nonneg]
  refine ⟨by rw [hrun]; simp, ?_⟩
  exact reachable_hold_durations_nonneg ⟨1, 120, true, 4⟩
    [EditorEvent.selectHold, EditorEvent.click "a" 0 0,
     EditorEvent.click "b" 600 0] initPlacement
    { id := "b", lane := 0, time := 0, type := NoteType.hold, duration := some (5/8) }
    (by rw [hrun]; simp) rfl
